import Mathlib

/-
Verification of the trend-infused script service (src/main.py).

The service pipes a video idea through keyword extraction, trend fetching,
viral-angle generation and script generation.  The pure logic — the labeled
CSV trend parser and the case-insensitive trend aggregator — is embedded
below directly from the source; each external call (SerpAPI search, LLM
generation) is modelled by passing its outcome in as a value, with `none`
standing for a raised exception.
-/

namespace Vidcamp

/-- Python `str.lower()`, modelled character-wise (ASCII-faithful; none of the
claims exercise non-ASCII case mapping). -/
def lower (s : String) : String := ⟨s.data.map Char.toLower⟩

/-- Python `str.upper()`, modelled character-wise (ASCII-faithful). -/
def upper (s : String) : String := ⟨s.data.map Char.toUpper⟩

/-- Python `str.strip()`: drop whitespace from both ends. -/
def strip (s : String) : String :=
  ⟨((s.data.dropWhile Char.isWhitespace).reverse.dropWhile Char.isWhitespace).reverse⟩

/-- Matcher for the regex fragment `\+?\d+%?`: an optional plus sign, one or
more digits, then an optional percent sign (`\d` modelled as ASCII digits). -/
def matchesNumeric (cs : List Char) : Bool :=
  let cs1 := if cs.head? = some '+' then cs.tail else cs
  let ds := cs1.takeWhile Char.isDigit
  let rest := cs1.dropWhile Char.isDigit
  (!ds.isEmpty) && (rest.isEmpty || rest = ['%'])

/-- Matcher for the alternation `(\+?\d+%?|Breakout)`. -/
def matchesTrailingValue (cs : List Char) : Bool :=
  cs = "Breakout".data || matchesNumeric cs

/-- Models `re.sub(r',(\+?\d+%?|Breakout)$', '', row)` from
`_parse_related_topics_csv` (src/main.py line 122).  The pattern is anchored
at `$` and its body cannot contain a comma, so a match, if any, starts at the
last comma of the row and runs to the end; Python `$` also matches just
before one trailing newline, which is modelled by peeling a final newline
off before matching and reattaching it afterwards.  When nothing matches the
substitution is a no-op and the row is returned unchanged. -/
def stripValueSuffix (row : String) : String :=
  let chars := row.data
  let hasNL := chars.getLast? = some '\n'
  let body := if hasNL then chars.dropLast else chars
  let rev := body.reverse
  let tailRev := rev.takeWhile (fun c => c ≠ ',')
  match rev.dropWhile (fun c => c ≠ ',') with
  | [] => row
  | _ :: beforeRev =>
      if matchesTrailingValue tailRev.reverse then
        ⟨beforeRev.reverse ++ (if hasNL then ['\n'] else [])⟩
      else row

/-- The two section labels the parser's `current_section` cursor can take
(the Python code stores the dict keys "top" / "rising"). -/
inductive TrendSection where
  | top
  | rising
  deriving DecidableEq

/-- The parser's result: the `{"top": [...], "rising": [...]}` dict. -/
structure TrendSet where
  top : List String
  rising : List String
  deriving DecidableEq

/-- Models `trends[current_section].append(topic)`. -/
def appendTopic (trends : TrendSet) (sec : TrendSection) (topic : String) : TrendSet :=
  match sec with
  | TrendSection.top => { trends with top := trends.top ++ [topic] }
  | TrendSection.rising => { trends with rising := trends.rising ++ [topic] }

/-- One iteration of the row loop of `_parse_related_topics_csv`
(src/main.py lines 109-126).  Python's `":" in row` with a one-character
needle is character membership, modelled on `row.data`. -/
def parseRow (st : TrendSet × Option TrendSection) (row : String) :
    TrendSet × Option TrendSection :=
  if row = "" then st
  else if upper row = "TOP" then (st.1, some TrendSection.top)
  else if upper row = "RISING" then (st.1, some TrendSection.rising)
  else if ':' ∈ row.data ∨ st.2 = none then st
  else
    let topic := strip (stripValueSuffix row)
    if topic = "" then st
    else
      match st.2 with
      | some sec => (appendTopic st.1 sec topic, st.2)
      | none => st

/-- `_parse_related_topics_csv` (src/main.py lines 101-128): fold the row
loop over the lines, starting with empty lists and an unset section cursor.
The `try/except (IndexError, ValueError)` around the body is dead code —
neither `re.sub` nor `strip` raises those — and is modelled as absent. -/
def _parse_related_topics_csv (csv_data : List String) : TrendSet :=
  if csv_data = [] then ⟨[], []⟩
  else (csv_data.foldl parseRow (⟨[], []⟩, none)).1

/-- Models `results.get("csv", [])`: a missing csv payload yields `[]`. -/
def csvOrDefault (o : Option (List String)) : List String := o.getD []

/-- One iteration of the merge loop of `generate_viral_angle`
(src/main.py lines 187-190): the accumulator is the pair
`(merged, seen)`, the seen set keyed by the lowercased trend. -/
def mergeStep (acc : List String × List String) (trend : String) :
    List String × List String :=
  if lower trend ∈ acc.2 then acc
  else (acc.1 ++ [trend], acc.2 ++ [lower trend])

/-- The trend-merging loop of `generate_viral_angle` (src/main.py lines
185-190): iterate the sources in priority order rising, top, global. -/
def mergeTrends (rising top global_trends : List String) : List String :=
  ([rising, top, global_trends].foldl (fun acc sec => sec.foldl mergeStep acc)
    ([], [])).1

/-- `trend_candidates = merged[:25]` (src/main.py line 192). -/
def trendCandidates (rising top global_trends : List String) : List String :=
  (mergeTrends rising top global_trends).take 25

/-- `generate_viral_angle` (src/main.py lines 182-237).  The external LLM
call together with code-fence stripping and JSON decoding is modelled as an
oracle value: `none` for a raising / unparseable / non-list-shaped outcome,
`some (viral_angle, selected_trends)` for a successfully decoded object; the
source's residual check `if not viral_angle` is kept as the emptiness test. -/
def generate_viral_angle (llm : Option (String × List String))
    (original_idea : String) (category_trends : TrendSet)
    (global_trends : List String) : Except String (String × List String) :=
  let trend_candidates :=
    trendCandidates category_trends.rising category_trends.top global_trends
  if trend_candidates = [] then Except.ok (original_idea, [])
  else
    match llm with
    | none => Except.error "Failed to generate viral angle"
    | some (viral_angle, selected_trends) =>
        if viral_angle = "" then Except.error "Failed to generate viral angle"
        else Except.ok (viral_angle, selected_trends)

/-- `generate_script` (src/main.py lines 239-258): the generation call is
modelled as `none` when it raises (mapped to the terminal error) and
`some text` for the produced `response.text`; the body returns
`response.text.strip()` unconditionally. -/
def generate_script (response_text : Option String) : Except String String :=
  match response_text with
  | none => Except.error "Failed to generate script"
  | some text => Except.ok (strip text)

/-- The `t.get('title', \x7b\x7d)` payload of one trending-search item. -/
structure TitleDict where
  query : Option String

/-- One element of the sniffed trending-search list; `title = none` models a
dict without a 'title' key. -/
structure TrendingItem where
  title : Option TitleDict

/-- A value of the global-trends result dict, as far as the shape sniff in
`fetch_trends` inspects it: either a non-empty-able list of dicts, or
anything else. -/
inductive SerpValue where
  | items (l : List TrendingItem)
  | other

/-- The category-query result dict, restricted to what the code reads:
whether an "error" key is present, and `results.get("csv", [])`. -/
structure CatResult where
  error : Bool
  csv : List String

/-- The global-query result dict: whether an "error" key is present, and its
items in insertion order. -/
structure GlobalResult where
  error : Bool
  entries : List (String × SerpValue)

/-- Models `t.get('title', \x7b\x7d).get('query')`. -/
def itemQuery (t : TrendingItem) : Option String :=
  match t.title with
  | none => none
  | some d => d.query

/-- The comprehension of src/main.py lines 171-175: keep each item's
title query when it is truthy (present and non-empty). -/
def extractTitles (l : List TrendingItem) : List String :=
  l.filterMap (fun t =>
    match itemQuery t with
    | some q => if q = "" then none else some q
    | none => none)

/-- The shape sniff of src/main.py lines 163-168: scan the result dict for
the first value that is a non-empty list whose first element is a dict with
a 'title' key, and take that list. -/
def findTrendingSearches : List (String × SerpValue) → List TrendingItem
  | [] => []
  | (_, SerpValue.items l) :: rest =>
      match l with
      | [] => findTrendingSearches rest
      | t0 :: _ => if t0.title.isSome then l else findTrendingSearches rest
  | (_, SerpValue.other) :: rest => findTrendingSearches rest

/-- The global-trends extraction of src/main.py lines 161-175. -/
def globalFrom (entries : List (String × SerpValue)) : List String :=
  let trending_searches := findTrendingSearches entries
  if trending_searches.isEmpty then [] else extractTitles trending_searches

/-- `fetch_trends` (src/main.py lines 130-180).  Each SerpAPI round-trip is
modelled by its outcome: `none` when `GoogleSearch(...).get_dict()` raises —
the surrounding single `try` then maps it to the terminal error — or
`some result` for a returned dict.  An "error" key in a returned dict leaves
that half's default empty data in place. -/
def fetch_trends (results_cat : Option CatResult)
    (results_global : Option GlobalResult) :
    Except String (TrendSet × List String) :=
  match results_cat with
  | none => Except.error "Failed to fetch trends"
  | some rc =>
      let category_trends :=
        if rc.error then (⟨[], []⟩ : TrendSet) else _parse_related_topics_csv rc.csv
      match results_global with
      | none => Except.error "Failed to fetch trends"
      | some rg =>
          let global_trends := if rg.error then [] else globalFrom rg.entries
          Except.ok (category_trends, global_trends)

/-- Reference dedup of the merge loop: keep an element when its lowercase
form is not in the seen list, threading the seen list through. -/
def dedupAux (seen : List String) : List String → List String
  | [] => []
  | x :: xs =>
      if lower x ∈ seen then dedupAux seen xs
      else x :: dedupAux (seen ++ [lower x]) xs

/-- Index of the first occurrence of `x` in a list (list length when
absent). -/
def firstIdx (x : String) : List String → Nat
  | [] => 0
  | y :: ys => if y = x then 0 else firstIdx x ys + 1

/-- Unfolding the merge fold: the accumulated pair is the already-merged
part plus the dedup of the remaining input, and the seen list tracks the
lowercased merged list. -/
theorem foldl_mergeStep (L : List String) : ∀ m s : List String,
    L.foldl mergeStep (m, s) = (m ++ dedupAux s L, s ++ (dedupAux s L).map lower) := by
  induction L with
  | nil => intro m s; simp [dedupAux]
  | cons x xs ih =>
      intro m s
      by_cases h : lower x ∈ s
      · rw [List.foldl_cons]
        have hstep : mergeStep (m, s) x = (m, s) := by simp [mergeStep, h]
        rw [hstep, ih m s]
        simp [dedupAux, h]
      · rw [List.foldl_cons]
        have hstep : mergeStep (m, s) x = (m ++ [x], s ++ [lower x]) := by
          simp [mergeStep, h]
        rw [hstep, ih (m ++ [x]) (s ++ [lower x])]
        simp [dedupAux, h]

/-- The nested source/trend loop equals a single dedup pass over the
priority-ordered concatenation of the three sources. -/
theorem mergeTrends_eq (rising top global_trends : List String) :
    mergeTrends rising top global_trends =
      dedupAux [] (rising ++ top ++ global_trends) := by
  have h1 : [rising, top, global_trends].foldl
      (fun acc sec => sec.foldl mergeStep acc) ([], []) =
      (rising ++ top ++ global_trends).foldl mergeStep ([], []) := by
    simp [List.foldl_append]
  unfold mergeTrends
  rw [h1, foldl_mergeStep]
  simp

/-- The dedup pass keeps a subsequence of its input. -/
theorem dedupAux_sublist (L : List String) : ∀ s, (dedupAux s L).Sublist L := by
  induction L with
  | nil => intro s; simp [dedupAux]
  | cons x xs ih =>
      intro s
      by_cases h : lower x ∈ s
      · simpa [dedupAux, h] using (ih s).cons x
      · simpa [dedupAux, h] using (ih (s ++ [lower x])).cons₂ x

/-- Every element the dedup pass keeps has a lowercase form outside the
initial seen list. -/
theorem lower_not_mem_of_mem_dedupAux (L : List String) :
    ∀ s x, x ∈ dedupAux s L → lower x ∉ s := by
  induction L with
  | nil => intro s x hx; simp [dedupAux] at hx
  | cons y ys ih =>
      intro s x hx
      by_cases h : lower y ∈ s
      · rw [dedupAux, if_pos h] at hx
        exact ih s x hx
      · rw [dedupAux, if_neg h] at hx
        rcases List.mem_cons.mp hx with he | ht
        · subst he; exact h
        · intro hc
          exact ih (s ++ [lower y]) x ht (List.mem_append_left _ hc)

/-- An element kept by a pass whose seen list already records `lower x`
cannot be `x` itself. -/
theorem ne_of_mem_dedupAux_seen (L : List String) (s : List String) (x b : String)
    (hb : b ∈ dedupAux s L) (hx : lower x ∈ s) : b ≠ x := by
  intro he
  subst he
  exact lower_not_mem_of_mem_dedupAux L s b hb hx

/-- Output of the dedup pass has pairwise distinct lowercase forms. -/
theorem dedupAux_pairwise_lower (L : List String) :
    ∀ s, (dedupAux s L).Pairwise (fun a b => lower a ≠ lower b) := by
  induction L with
  | nil => intro s; simp [dedupAux]
  | cons x xs ih =>
      intro s
      by_cases h : lower x ∈ s
      · rw [dedupAux, if_pos h]
        exact ih s
      · rw [dedupAux, if_neg h]
        refine List.Pairwise.cons ?_ (ih (s ++ [lower x]))
        intro b hb he
        have hnot := lower_not_mem_of_mem_dedupAux xs (s ++ [lower x]) b hb
        apply hnot
        rw [← he]
        simp

/-- Lifting a first-occurrence ordering from `xs` to `x :: xs` along a list
of elements all distinct from `x`. -/
theorem pairwise_firstIdx_lift (x : String) (xs : List String) (l : List String)
    (hne : ∀ b ∈ l, b ≠ x)
    (hp : l.Pairwise (fun a b => firstIdx a xs < firstIdx b xs)) :
    l.Pairwise (fun a b => firstIdx a (x :: xs) < firstIdx b (x :: xs)) := by
  refine hp.imp_of_mem ?_
  intro a b ha hb hab
  have hax : ¬ x = a := fun he => (hne a ha) he.symm
  have hbx : ¬ x = b := fun he => (hne b hb) he.symm
  simp only [firstIdx, if_neg hax, if_neg hbx]
  omega

/-- The dedup pass lists its survivors in the order of their first
occurrences in the input. -/
theorem dedupAux_pairwise_firstIdx (L : List String) :
    ∀ s, (dedupAux s L).Pairwise (fun a b => firstIdx a L < firstIdx b L) := by
  induction L with
  | nil => intro s; simp [dedupAux]
  | cons x xs ih =>
      intro s
      by_cases h : lower x ∈ s
      · rw [dedupAux, if_pos h]
        refine pairwise_firstIdx_lift x xs _ ?_ (ih s)
        intro b hb
        exact ne_of_mem_dedupAux_seen xs s x b hb h
      · rw [dedupAux, if_neg h]
        have hne : ∀ b ∈ dedupAux (s ++ [lower x]) xs, b ≠ x := by
          intro b hb
          exact ne_of_mem_dedupAux_seen xs (s ++ [lower x]) x b hb (by simp)
        refine List.Pairwise.cons ?_ (pairwise_firstIdx_lift x xs _ hne (ih (s ++ [lower x])))
        intro b hb
        have hbx : ¬ x = b := fun he => (hne b hb) he.symm
        simp [firstIdx, hbx]

/-- On input with pairwise distinct lowercase forms, none already seen, the
dedup pass is the identity. -/
theorem dedupAux_eq_self (L : List String) : ∀ s,
    (∀ x ∈ L, lower x ∉ s) → L.Pairwise (fun a b => lower a ≠ lower b) →
    dedupAux s L = L := by
  induction L with
  | nil => intro s _ _; simp [dedupAux]
  | cons x xs ih =>
      intro s hs hp
      have hx : lower x ∉ s := hs x (List.mem_cons_self x xs)
      rw [dedupAux, if_neg hx]
      have hxs : ∀ y ∈ xs, lower y ∉ s ++ [lower x] := by
        intro y hy hc
        rcases List.mem_append.mp hc with h1 | h2
        · exact hs y (List.mem_cons_of_mem x hy) h1
        · have hxy : lower x ≠ lower y := (List.pairwise_cons.mp hp).1 y hy
          simp at h2
          exact hxy h2.symm
      rw [ih (s ++ [lower x]) hxs (List.pairwise_cons.mp hp).2]

/-- A row containing a colon cannot uppercase to a colon-free string. -/
theorem upper_ne_of_colon_mem (row : String) (h : ':' ∈ row.data)
    (target : String) (htarget : ':' ∉ target.data) : upper row ≠ target := by
  intro he
  have hmem : ':' ∈ (upper row).data := by
    show ':' ∈ row.data.map Char.toUpper
    exact List.mem_map.mpr ⟨':', h, by decide⟩
  rw [he] at hmem
  exact htarget hmem

/-- C1: for every triple of input sources, the trend aggregation step of
`generate_viral_angle` produces a candidate list of length at most 25, in
which no two entries are equal after lowercasing, and whose entries appear
in the same relative order as their first occurrences across the sources
taken in priority order (rising, then top, then global). -/
theorem trend_aggregation_spec (rising top global_trends : List String) :
    (trendCandidates rising top global_trends).length ≤ 25 ∧
    (trendCandidates rising top global_trends).Pairwise
      (fun a b => lower a ≠ lower b) ∧
    (trendCandidates rising top global_trends).Pairwise
      (fun a b => firstIdx a (rising ++ top ++ global_trends) <
                  firstIdx b (rising ++ top ++ global_trends)) := by
  unfold trendCandidates
  rw [mergeTrends_eq]
  refine ⟨?_, ?_, ?_⟩
  · rw [List.length_take]
    exact min_le_left _ _
  · exact List.Pairwise.sublist (List.take_sublist _ _)
      (dedupAux_pairwise_lower _ [])
  · exact List.Pairwise.sublist (List.take_sublist _ _)
      (dedupAux_pairwise_firstIdx _ [])

/-- C2: parsing the five scenario-A lines yields exactly
top = ["Coffee", "Tea"] and rising = ["Matcha"]. -/
theorem parse_scenario_A :
    _parse_related_topics_csv
      ["TOP", "Coffee,100", "Tea,+20%", "RISING", "Matcha,Breakout"] =
      ⟨["Coffee", "Tea"], ["Matcha"]⟩ := by decide

/-- C3 counterexample: a stray-comma data line is not dropped — under an
active TOP section the parser appends the literal "," as a topic, because
the value-suffix pattern does not match "," and the stripped row is a
non-empty string. -/
theorem stray_comma_counterexample :
    (_parse_related_topics_csv ["TOP", ","]).top = [","] := by decide

/-- C3 amended: processing a stray-comma line appends the literal topic ","
to the active section's list (and contributes nothing only when no section
cursor is set), after which parsing continues with the remaining lines. -/
theorem stray_comma_kept (ts : TrendSet) (cur : Option TrendSection)
    (rest : List String) :
    List.foldl parseRow (ts, cur) ("," :: rest) =
      List.foldl parseRow
        (match cur with
         | none => (ts, none)
         | some TrendSection.top =>
             ({ ts with top := ts.top ++ [","] }, some TrendSection.top)
         | some TrendSection.rising =>
             ({ ts with rising := ts.rising ++ [","] }, some TrendSection.rising))
        rest := by
  rcases cur with _ | sec
  · rfl
  · rcases sec <;> rfl

/-- C4 counterexample: a generation response that is empty after trimming is
returned as a success with the empty script, not raised as a terminal
error. -/
theorem generate_script_empty_success :
    generate_script (some " \n ") = Except.ok "" := rfl

/-- C4 amended: `generate_script` returns the trimmed response text whenever
the generation call yields text — even when the trimmed text is empty — and
raises a terminal error only when the call itself raises; no non-emptiness
validation is performed. -/
theorem generate_script_behavior (t : String) :
    generate_script (some t) = Except.ok (strip t) ∧
    generate_script none = Except.error "Failed to generate script" :=
  ⟨rfl, rfl⟩

/-- C5 counterexample: an exception raised by the category-specific query
(the `none` outcome) fails the whole `fetch_trends` call with the terminal
error instead of degrading only the category half. -/
theorem fetch_trends_cat_exception_fails_call :
    fetch_trends none (some ⟨false, []⟩) =
      Except.error "Failed to fetch trends" := rfl

/-- C5 amended: an "error" indicator in the category result and one in the
global result each independently degrade only that half to empty data, but
an exception raised during either retrieval — both run inside one `try`
block — fails the entire call with a terminal error. -/
theorem fetch_trends_error_independence (csv : List String)
    (entries : List (String × SerpValue)) :
    fetch_trends (some ⟨true, csv⟩) (some ⟨false, entries⟩) =
      Except.ok (⟨[], []⟩, globalFrom entries) ∧
    fetch_trends (some ⟨false, csv⟩) (some ⟨true, entries⟩) =
      Except.ok (_parse_related_topics_csv csv, []) ∧
    fetch_trends (some ⟨true, csv⟩) (some ⟨true, entries⟩) =
      Except.ok (⟨[], []⟩, []) ∧
    fetch_trends none (some ⟨false, entries⟩) =
      Except.error "Failed to fetch trends" ∧
    fetch_trends (some ⟨false, csv⟩) none =
      Except.error "Failed to fetch trends" :=
  ⟨rfl, rfl, rfl, rfl, rfl⟩

/-- C6: with all three trend sources empty the candidate list is empty, so
`generate_viral_angle` returns the original idea and an empty selection as
a success for every possible oracle outcome — i.e. without consulting the
external LLM call at all. -/
theorem viral_angle_empty_passthrough (llm : Option (String × List String))
    (original_idea : String) :
    generate_viral_angle llm original_idea ⟨[], []⟩ [] =
      Except.ok (original_idea, []) := rfl

/-- C7: a list that is already deduplicated under case-insensitive
comparison and within the cap of 25 passes through the aggregation step
unchanged when supplied as the sole source, in any of the three slots. -/
theorem aggregation_idempotent (L : List String)
    (hdedup : L.Pairwise (fun a b => lower a ≠ lower b))
    (hlen : L.length ≤ 25) :
    trendCandidates L [] [] = L ∧ trendCandidates [] L [] = L ∧
    trendCandidates [] [] L = L := by
  have key : dedupAux [] L = L :=
    dedupAux_eq_self L [] (by simp) hdedup
  refine ⟨?_, ?_, ?_⟩ <;>
    · unfold trendCandidates
      rw [mergeTrends_eq]
      simp only [List.append_nil, List.nil_append]
      rw [key]
      exact List.take_of_length_le hlen

/-- Witness for C7 at a concrete deduplicated two-element list. -/
theorem aggregation_idempotent_witness :
    trendCandidates ["Dalgona coffee", "Autumn"] [] [] =
      ["Dalgona coffee", "Autumn"] ∧
    trendCandidates [] ["Dalgona coffee", "Autumn"] [] =
      ["Dalgona coffee", "Autumn"] ∧
    trendCandidates [] [] ["Dalgona coffee", "Autumn"] =
      ["Dalgona coffee", "Autumn"] :=
  aggregation_idempotent ["Dalgona coffee", "Autumn"] (by decide) (by decide)

/-- C8: the parser maps an empty input line sequence — and the empty default
supplied for a missing csv payload — to a trend set with both lists empty,
returning totally (never an error). -/
theorem parse_empty_input :
    _parse_related_topics_csv [] = ⟨[], []⟩ ∧
    _parse_related_topics_csv (csvOrDefault none) = ⟨[], []⟩ :=
  ⟨rfl, rfl⟩

/-- C9: any row containing a colon — which can never equal a "TOP"/"RISING"
header — is skipped entirely: the loop state (both lists and the section
cursor) is unchanged, even when the row ends in a recognizable value
suffix. -/
theorem colon_row_skipped (trends : TrendSet) (cur : Option TrendSection)
    (row : String) (h : ':' ∈ row.data) :
    parseRow (trends, cur) row = (trends, cur) := by
  have hne : row ≠ "" := by
    intro he
    rw [he] at h
    have hnil : ("" : String).data = [] := rfl
    rw [hnil] at h
    exact List.not_mem_nil _ h
  have htop : upper row ≠ "TOP" :=
    upper_ne_of_colon_mem row h "TOP" (by decide)
  have hris : upper row ≠ "RISING" :=
    upper_ne_of_colon_mem row h "RISING" (by decide)
  unfold parseRow
  rw [if_neg hne, if_neg htop, if_neg hris, if_pos (Or.inl h)]

/-- Witness for C9 at a metadata-looking row that ends in a valid value
suffix. -/
theorem colon_row_skipped_witness :
    parseRow (⟨[], []⟩, some TrendSection.top) "Re:Zero,100" =
      (⟨[], []⟩, some TrendSection.top) :=
  colon_row_skipped ⟨[], []⟩ (some TrendSection.top) "Re:Zero,100" (by decide)

/-- C10: the aggregated candidate list is a subsequence of the concatenation
rising ++ top ++ global, so every output entry occurs verbatim in one of the
input sources — the aggregator never invents or rewrites entries. -/
theorem aggregation_subsequence (rising top global_trends : List String) :
    (trendCandidates rising top global_trends).Sublist
      (rising ++ top ++ global_trends) ∧
    ∀ x ∈ trendCandidates rising top global_trends,
      x ∈ rising ∨ x ∈ top ∨ x ∈ global_trends := by
  have hsub : (trendCandidates rising top global_trends).Sublist
      (rising ++ top ++ global_trends) := by
    unfold trendCandidates
    rw [mergeTrends_eq]
    exact (List.take_sublist _ _).trans (dedupAux_sublist _ [])
  refine ⟨hsub, ?_⟩
  intro x hx
  have hmem := hsub.subset hx
  rcases List.mem_append.mp hmem with h1 | hg
  · rcases List.mem_append.mp h1 with hr | ht
    · exact Or.inl hr
    · exact Or.inr (Or.inl ht)
  · exact Or.inr (Or.inr hg)

end Vidcamp
